import Mathlib

/-!
Shallow embedding of the `agentic-fx-ai-mtf` repository (three Python source
files: `data_ingestion/histdata_ingestor.py`, `clear_pushgateway.py`,
`push_sample_fx_metrics.py`) and proofs about the claims of its
specification.

Conventions of the embedding:
* Python strings are Lean `String` / `List Char`; only the ASCII fragment of
  the Python text predicates (whitespace, digits, lower-casing) is modelled,
  which covers the data handled by this program.
* `datetime.strptime` is modelled by a backtracking matcher that mirrors the
  regular expressions CPython builds for the three format strings used by
  the program, in the same preference order, followed by the `datetime`
  constructor range validation.
* Python `float(...)` is modelled by `pyFloat`, returning the exactly
  represented decimal value as an integer mantissa and a power-of-ten
  exponent (`PyFloat.finite m e` stands for the value m * 10 ^ e), or the
  special values inf / -inf / nan, or `none` on a `ValueError`.
* Network calls (Pushgateway pushes, HTTP deletes) are modelled as events
  accumulated in a list; a push event records exactly the data the call
  would transmit.
-/

/-! ## Character and string helpers -/

/-- ASCII whitespace, as matched by the regex class `\s` and by Python
`str.strip` / `str.split` on the data handled by this program. -/
def isWsChar (c : Char) : Bool :=
  c = ' ' || c = '\t' || c = '\n' || c = '\r' || c = '\x0b' || c = '\x0c'

/-- Numeric value of a digit character. -/
def digitVal (c : Char) : Nat := c.toNat - '0'.toNat

/-- Python `str.strip()` on a character list (ASCII whitespace). -/
def stripChars (l : List Char) : List Char :=
  ((l.dropWhile isWsChar).reverse.dropWhile isWsChar).reverse

/-- Python `str.strip()`. -/
def pyStrip (s : String) : String := ⟨stripChars s.data⟩

/-- `c in s` for a one-character Python needle. -/
def strHasChar (s : String) (c : Char) : Bool := s.data.any (fun x => x = c)

/-- Whitespace-separated groups of a character list (before dropping empty
groups); helper for Python `str.split()` with no argument. -/
def tokenGroups (l : List Char) : List (List Char) :=
  l.foldr
    (fun c acc =>
      if isWsChar c then [] :: acc
      else
        match acc with
        | [] => [[c]]
        | t :: ts => (c :: t) :: ts)
    []

/-- Python `str.split()` (no argument): whitespace-separated tokens, empty
tokens dropped. -/
def pyTokens (s : String) : List (List Char) :=
  (tokenGroups s.data).filter (fun t => !t.isEmpty)

/-- Split a character list on every occurrence of `sep` (Python
`str.split(sep)` / the field splitting done by `csv.reader` on quote-free
input). -/
def splitOnChar (sep : Char) (l : List Char) : List (List Char) :=
  l.foldr
    (fun c acc =>
      if c = sep then [] :: acc
      else
        match acc with
        | [] => [[c]]
        | t :: ts => (c :: t) :: ts)
    [[]]

/-- Lower-case an ASCII character (Python `str.lower` restricted to ASCII). -/
def lowerChar (c : Char) : Char :=
  if 'A' ≤ c && c ≤ 'Z' then Char.ofNat (c.toNat + 32) else c

/-- Python `str.lower()` (ASCII fragment). -/
def pyLower (s : String) : String := ⟨s.data.map lowerChar⟩

/-- Python `needle in haystack` substring containment. -/
def strContains (haystack needle : String) : Bool :=
  (List.range (haystack.data.length + 1)).any
    (fun i => needle.data.isPrefixOf (haystack.data.drop i))

/-! ## `datetime.strptime` model

CPython compiles a format string into a regular expression; the directives
used by this program map to `%Y ↦ \d\d\d\d`, `%m ↦ 1[0-2]|0[1-9]|[1-9]`,
`%d ↦ 3[01]|[12]\d|0[1-9]|[1-9]`, `%H ↦ 2[0-3]|[0-1]\d|\d`,
`%M ↦ [0-5]\d|\d`, `%S ↦ 6[0-1]|[0-5]\d|\d`, a whitespace run in the format
to `\s+`, and other characters to literals.  `re.match` yields the first
match in backtracking preference order; `strptime` then fails when that
match does not consume the whole string, and `datetime(...)` validates the
field ranges.  Each token parser below returns every way the token can
match, in regex preference order, and sequencing concatenates in the same
depth-first order, so the head of the final list is exactly the match
`re.match` finds. -/

structure PyDateTime where
  year : Nat
  month : Nat
  day : Nat
  hour : Nat
  minute : Nat
  second : Nat
deriving DecidableEq, Repr

/-- `\d\d\d\d` (the `%Y` directive). -/
def parseY : List Char → List (Nat × List Char)
  | a :: b :: c :: d :: rest =>
    if a.isDigit && b.isDigit && c.isDigit && d.isDigit then
      [(digitVal a * 1000 + digitVal b * 100 + digitVal c * 10 + digitVal d, rest)]
    else []
  | _ => []

/-- `1[0-2]|0[1-9]|[1-9]` (the `%m` directive), alternatives in regex order. -/
def parseMon (l : List Char) : List (Nat × List Char) :=
  (match l with
   | '1' :: b :: rest => if '0' ≤ b && b ≤ '2' then [(10 + digitVal b, rest)] else []
   | _ => []) ++
  (match l with
   | '0' :: b :: rest => if '1' ≤ b && b ≤ '9' then [(digitVal b, rest)] else []
   | _ => []) ++
  (match l with
   | a :: rest => if '1' ≤ a && a ≤ '9' then [(digitVal a, rest)] else []
   | _ => [])

/-- `3[01]|[12]\d|0[1-9]|[1-9]` (the `%d` directive). -/
def parseD (l : List Char) : List (Nat × List Char) :=
  (match l with
   | '3' :: b :: rest => if '0' ≤ b && b ≤ '1' then [(30 + digitVal b, rest)] else []
   | _ => []) ++
  (match l with
   | a :: b :: rest =>
     if ('1' ≤ a && a ≤ '2') && b.isDigit then [(digitVal a * 10 + digitVal b, rest)] else []
   | _ => []) ++
  (match l with
   | '0' :: b :: rest => if '1' ≤ b && b ≤ '9' then [(digitVal b, rest)] else []
   | _ => []) ++
  (match l with
   | a :: rest => if '1' ≤ a && a ≤ '9' then [(digitVal a, rest)] else []
   | _ => [])

/-- `2[0-3]|[0-1]\d|\d` (the `%H` directive). -/
def parseH (l : List Char) : List (Nat × List Char) :=
  (match l with
   | '2' :: b :: rest => if '0' ≤ b && b ≤ '3' then [(20 + digitVal b, rest)] else []
   | _ => []) ++
  (match l with
   | a :: b :: rest =>
     if ('0' ≤ a && a ≤ '1') && b.isDigit then [(digitVal a * 10 + digitVal b, rest)] else []
   | _ => []) ++
  (match l with
   | a :: rest => if a.isDigit then [(digitVal a, rest)] else []
   | _ => [])

/-- `[0-5]\d|\d` (the `%M` directive). -/
def parseMin (l : List Char) : List (Nat × List Char) :=
  (match l with
   | a :: b :: rest =>
     if ('0' ≤ a && a ≤ '5') && b.isDigit then [(digitVal a * 10 + digitVal b, rest)] else []
   | _ => []) ++
  (match l with
   | a :: rest => if a.isDigit then [(digitVal a, rest)] else []
   | _ => [])

/-- `6[0-1]|[0-5]\d|\d` (the `%S` directive). -/
def parseS (l : List Char) : List (Nat × List Char) :=
  (match l with
   | '6' :: b :: rest => if '0' ≤ b && b ≤ '1' then [(60 + digitVal b, rest)] else []
   | _ => []) ++
  (match l with
   | a :: b :: rest =>
     if ('0' ≤ a && a ≤ '5') && b.isDigit then [(digitVal a * 10 + digitVal b, rest)] else []
   | _ => []) ++
  (match l with
   | a :: rest => if a.isDigit then [(digitVal a, rest)] else []
   | _ => [])

/-- `\s+` (a whitespace run in the format): all splits that consume at least
one whitespace character, longest (greedy) first. -/
def parseWsRun (l : List Char) : List (Unit × List Char) :=
  let k := (l.takeWhile isWsChar).length
  (List.range k).map (fun i => ((), l.drop (k - i)))

/-- A literal character of the format. -/
def parseLit (ch : Char) : List Char → List (Unit × List Char)
  | c :: rest => if c = ch then [((), rest)] else []
  | _ => []

/-- Depth-first sequencing of token matchers, preserving regex preference
order. -/
def pseq {α β : Type} (xs : List (α × List Char))
    (f : α → List Char → List (β × List Char)) : List (β × List Char) :=
  xs.flatMap (fun p => f p.1 p.2)

/-- All matches of the regex for the format `%Y%m%d %H%M%S`, in preference order. -/
def fmt1Matches (l : List Char) : List (PyDateTime × List Char) :=
  pseq (parseY l) fun y r1 =>
  pseq (parseMon r1) fun mo r2 =>
  pseq (parseD r2) fun d r3 =>
  pseq (parseWsRun r3) fun _ r4 =>
  pseq (parseH r4) fun h r5 =>
  pseq (parseMin r5) fun mi r6 =>
  (parseS r6).map (fun p => (⟨y, mo, d, h, mi, p.1⟩, p.2))

/-- All matches of the regex for the format `%Y.%m.%d %H:%M` (seconds default to 0). -/
def fmt2Matches (l : List Char) : List (PyDateTime × List Char) :=
  pseq (parseY l) fun y r1 =>
  pseq (parseLit '.' r1) fun _ r2 =>
  pseq (parseMon r2) fun mo r3 =>
  pseq (parseLit '.' r3) fun _ r4 =>
  pseq (parseD r4) fun d r5 =>
  pseq (parseWsRun r5) fun _ r6 =>
  pseq (parseH r6) fun h r7 =>
  pseq (parseLit ':' r7) fun _ r8 =>
  (parseMin r8).map (fun p => (⟨y, mo, d, h, p.1, 0⟩, p.2))

/-- All matches of the regex for the format `%Y%m%d%H%M%S`. -/
def fmt3Matches (l : List Char) : List (PyDateTime × List Char) :=
  pseq (parseY l) fun y r1 =>
  pseq (parseMon r1) fun mo r2 =>
  pseq (parseD r2) fun d r3 =>
  pseq (parseH r3) fun h r4 =>
  pseq (parseMin r4) fun mi r5 =>
  (parseS r5).map (fun p => (⟨y, mo, d, h, mi, p.1⟩, p.2))

def isLeapYear (y : Nat) : Bool := (y % 4 = 0 && y % 100 ≠ 0) || y % 400 = 0

def daysInMonth (y m : Nat) : Nat :=
  if m = 2 then (if isLeapYear y then 29 else 28)
  else if m = 4 || m = 6 || m = 9 || m = 11 then 30
  else 31

/-- The range validation done by the `datetime` constructor (a failure is a
`ValueError`, which `strptime` propagates). -/
def validateDT (dt : PyDateTime) : Option PyDateTime :=
  if 1 ≤ dt.year && dt.year ≤ 9999 && 1 ≤ dt.month && dt.month ≤ 12 &&
     1 ≤ dt.day && dt.day ≤ daysInMonth dt.year dt.month &&
     dt.hour ≤ 23 && dt.minute ≤ 59 && dt.second ≤ 59
  then some dt else none

/-- `datetime.strptime(s, fmt)` for one format: take the first
preference-ordered match, require it to consume the whole string, then
validate ranges. -/
def strptimeWith (fmtMatches : List Char → List (PyDateTime × List Char))
    (s : String) : Option PyDateTime :=
  match fmtMatches s.data with
  | [] => none
  | (dt, rest) :: _ => if rest.isEmpty then validateDT dt else none

/-- `HISTDATA_DATETIME_FORMATS` tried in order; first success wins
(`histdata_ingestor.py`, lines 25-29 and 110-121). -/
def tryFormats (s : String) : Option PyDateTime :=
  match strptimeWith fmt1Matches s with
  | some dt => some dt
  | none =>
    match strptimeWith fmt2Matches s with
    | some dt => some dt
    | none => strptimeWith fmt3Matches s

/-- `parse_datetime_from_row` (`histdata_ingestor.py`, lines 108-122): try
the stripped first column alone, then (when a second column exists) the
space-joined concatenation of the stripped first two columns.  An empty row
raises `IndexError` in Python, which the caller catches and turns into a
row skip; this is modelled as `none`. -/
def parse_datetime_from_row (row : List String) : Option PyDateTime :=
  match row with
  | [] => none
  | s0 :: rest =>
    match tryFormats (pyStrip s0) with
    | some dt => some dt
    | none =>
      match rest with
      | [] => none
      | s1 :: _ => tryFormats (pyStrip s0 ++ " " ++ pyStrip s1)

/-! ## Python `float(str)` model

`PyFloat.finite m e` stands for the exactly-parsed decimal value
`m * 10 ^ e`; the pair is produced deterministically from the digit strings
of the literal (CPython rounds this value to binary, but every claim below
only compares values parsed through this same function, so the exact decimal
is the faithful common model).  `none` models a `ValueError`. -/

inductive PyFloat where
  | finite (mantissa : Int) (exp10 : Int)
  | pinf
  | ninf
  | nan
deriving DecidableEq, Repr

/-- A run of digits possibly containing single underscores between digits
(PEP 515); returns the digits with underscores removed, or `none` when an
underscore is not followed by a digit (a `ValueError` for the whole
literal). -/
def digitsUGo : List Char → List Char → Option (List Char × List Char)
  | acc, '_' :: d :: rest =>
    if d.isDigit then digitsUGo (acc ++ [d]) rest else none
  | _, ['_'] => none
  | acc, d :: rest =>
    if d.isDigit then digitsUGo (acc ++ [d]) rest else some (acc, d :: rest)
  | acc, [] => some (acc, [])

/-- Maximal digit run at the head of `l` (empty when `l` does not start with
a digit). -/
def digitsURun (l : List Char) : Option (List Char × List Char) :=
  match l with
  | c :: _ => if c.isDigit then digitsUGo [] l else some ([], l)
  | [] => some ([], [])

def natOfDigits (l : List Char) : Nat := l.foldl (fun n c => n * 10 + digitVal c) 0

/-- The numeric (non inf/nan) part of the Python float grammar:
`[digits][.[digits]][(e|E)[sign]digits]`, at least one digit before the
exponent; the whole remainder must be consumed. -/
def parsePyNumber (l : List Char) : Option (Int × Int) := do
  let (ip, r1) ← digitsURun l
  let (fp, r2) ←
    match r1 with
    | '.' :: rest => digitsURun rest
    | _ => some ([], r1)
  if ip.isEmpty && fp.isEmpty then none
  else
    let (ex, r3) ←
      match r2 with
      | c :: rest =>
        if c = 'e' || c = 'E' then
          let (eneg, r) :=
            match rest with
            | '+' :: r => (false, r)
            | '-' :: r => (true, r)
            | _ => (false, rest)
          match digitsURun r with
          | some (ed, r') =>
            if ed.isEmpty then none
            else some ((if eneg then -(natOfDigits ed : Int) else (natOfDigits ed : Int)), r')
          | none => none
        else some ((0 : Int), r2)
      | [] => some ((0 : Int), [])
    if r3.isEmpty then
      some ((natOfDigits (ip ++ fp) : Int), ex - (fp.length : Int))
    else none

/-- Python `float(s)`: strip whitespace, optional sign, then either an
inf/nan keyword (case-insensitive) or a decimal literal. -/
def pyFloat (s : String) : Option PyFloat :=
  let l := stripChars s.data
  let (neg, l1) :=
    match l with
    | '+' :: r => (false, r)
    | '-' :: r => (true, r)
    | _ => (false, l)
  let low := l1.map lowerChar
  if low = "inf".data || low = "infinity".data then
    some (if neg then PyFloat.ninf else PyFloat.pinf)
  else if low = "nan".data then some PyFloat.nan
  else
    match parsePyNumber l1 with
    | some (m, e) => some (PyFloat.finite (if neg then -m else m) e)
    | none => none

/-! ## Data model of the ingestor -/

/-- One parsed OHLC bar (the volume column is required to be present but is
never converted nor stored: the `float(row[...+4])` line is commented out in
the source). -/
structure PriceBar where
  dt : PyDateTime
  openPrice : PyFloat
  highPrice : PyFloat
  lowPrice : PyFloat
  closePrice : PyFloat
deriving DecidableEq, Repr

/-- A Prometheus gauge with label names
`currency_pair, timeframe, timestamp`: a map from label-value
triples to the last value set for that triple. -/
structure GaugeMap where
  entries : List ((String × String × String) × PyFloat)
deriving DecidableEq, Repr

def GaugeMap.set (g : GaugeMap) (k : String × String × String) (v : PyFloat) :
    GaugeMap :=
  if g.entries.any (fun e => e.1 = k) then
    ⟨g.entries.map (fun e => if e.1 = k then (k, v) else e)⟩
  else ⟨g.entries ++ [(k, v)]⟩

/-- A `CollectorRegistry` holding the four OHLC gauges
(`fx_ohlc_open/high/low/close`). -/
structure Registry where
  gOpen : GaugeMap
  gHigh : GaugeMap
  gLow : GaugeMap
  gClose : GaugeMap
deriving DecidableEq, Repr

def emptyRegistry : Registry := ⟨⟨[]⟩, ⟨[]⟩, ⟨[]⟩, ⟨[]⟩⟩

def JOB_NAME : String := "histdata_fx_ingestor"

def timeframeLabel : String := "1m"

/-- `f"{currency_pair}_{year}_{month:02d}"` (`histdata_ingestor.py`,
line 131). -/
def fmt02 (n : Nat) : String := if n < 10 then "0" ++ toString n else toString n

def groupingKeyInstance (currencyPair : String) (year month : Nat) : String :=
  currencyPair ++ "_" ++ toString year ++ "_" ++ fmt02 month

/-- `dt_obj.strftime` with format `%Y%m%d%H%M%S`: each field zero-padded to its width
(4+2+2+2+2+2 = 14 digit characters; all fields produced by the parser are
within these widths). -/
def digitChr (n : Nat) : Char :=
  match n % 10 with
  | 0 => '0' | 1 => '1' | 2 => '2' | 3 => '3' | 4 => '4'
  | 5 => '5' | 6 => '6' | 7 => '7' | 8 => '8' | _ => '9'

def fmtTimestampLabel (dt : PyDateTime) : String :=
  ⟨[digitChr (dt.year / 1000), digitChr (dt.year / 100), digitChr (dt.year / 10),
    digitChr dt.year,
    digitChr (dt.month / 10), digitChr dt.month,
    digitChr (dt.day / 10), digitChr dt.day,
    digitChr (dt.hour / 10), digitChr dt.hour,
    digitChr (dt.minute / 10), digitChr dt.minute,
    digitChr (dt.second / 10), digitChr dt.second]⟩

/-- The heuristic OHLC column-offset detection (`histdata_ingestor.py`,
lines 185-192), translated condition for condition. -/
def ohlcvStartIndex (row : List String) : Nat :=
  match row with
  | [] => 1
  | s0 :: _ =>
    let tokCount := (pyTokens s0).length
    let hasDot := strHasChar s0 '.'
    if tokCount == 1 && !hasDot && decide (1 < row.length) &&
       strHasChar (row.getD 1 "") ':' then 2
    else if !(decide (1 < tokCount) || hasDot) then
      (if tokCount == 1 && !(hasDot || strHasChar s0 ':') then 2 else 1)
    else 1

/-- The per-row parsing of `parse_histdata_csv_and_push`
(`histdata_ingestor.py`, lines 180-205): datetime recovery, offset
detection, the five-further-columns requirement, and the four `float`
conversions; any failure skips the row (`continue` or a caught
`ValueError` / `IndexError`). -/
def parseRowToBar (row : List String) : Option PriceBar :=
  match parse_datetime_from_row row with
  | none => none
  | some dt =>
    let idx := ohlcvStartIndex row
    if row.length < idx + 5 then none
    else
      match pyFloat (row.getD idx ""), pyFloat (row.getD (idx + 1) ""),
            pyFloat (row.getD (idx + 2) ""), pyFloat (row.getD (idx + 3) "") with
      | some o, some h, some lo, some c => some ⟨dt, o, h, lo, c⟩
      | _, _, _, _ => none

/-- One call of `push_to_gateway` made by `_push_metrics_sub_batch`: the
job name, the grouping-key instance, the pushed registry content and the
candle count of the sub-batch. -/
structure PushEvent where
  job : String
  groupingInstance : String
  registry : Registry
  candleCount : Nat
deriving DecidableEq, Repr

/-- `_push_metrics_sub_batch` (`histdata_ingestor.py`, lines 125-147): a
zero-candle sub-batch returns without calling `push_to_gateway`; otherwise
one push call is made (network failures are caught and only logged, so the
call itself is the observable event). -/
def push_metrics_sub_batch (registry : Registry) (currencyPair : String)
    (year month : Nat) (subBatchCandleCount : Nat) (pushes : List PushEvent) :
    List PushEvent :=
  if subBatchCandleCount = 0 then pushes
  else
    pushes ++ [{ job := JOB_NAME,
                 groupingInstance := groupingKeyInstance currencyPair year month,
                 registry := registry,
                 candleCount := subBatchCandleCount }]

/-- The mutable state of the main loop of `parse_histdata_csv_and_push`. -/
structure IngestState where
  registry : Registry
  candlesTotal : Nat
  candlesInSub : Nat
  pushes : List PushEvent
deriving DecidableEq, Repr

def initIngestState : IngestState := ⟨emptyRegistry, 0, 0, []⟩

/-- The label values `[currency_pair, timeframe_label, candle_timestamp_label]`
of one bar (`histdata_ingestor.py`, line 209). -/
def barLabels (currencyPair : String) (bar : PriceBar) : String × String × String :=
  (currencyPair, timeframeLabel, fmtTimestampLabel bar.dt)

/-- Record one parsed bar into the four gauges. -/
def addBar (reg : Registry) (currencyPair : String) (bar : PriceBar) : Registry :=
  let labels := barLabels currencyPair bar
  { gOpen := reg.gOpen.set labels bar.openPrice,
    gHigh := reg.gHigh.set labels bar.highPrice,
    gLow := reg.gLow.set labels bar.lowPrice,
    gClose := reg.gClose.set labels bar.closePrice }

/-- The counter updates, push condition and registry rotation after a
successfully parsed bar (`histdata_ingestor.py`, lines 207-233).  A push
happens when the sub-batch reaches `chunkSize` or when the count of
processed candles equals the total row count of the file; after a push the
registry is replaced by a fresh empty one only while
`candles_processed_total < total_rows_in_file`. -/
def ingestBar (currencyPair : String) (year month chunkSize totalRows : Nat)
    (st : IngestState) (bar : PriceBar) : IngestState :=
  let reg1 := addBar st.registry currencyPair bar
  let total1 := st.candlesTotal + 1
  let sub1 := st.candlesInSub + 1
  if chunkSize ≤ sub1 || total1 = totalRows then
    { registry := if total1 < totalRows then emptyRegistry else reg1,
      candlesTotal := total1,
      candlesInSub := 0,
      pushes := push_metrics_sub_batch reg1 currencyPair year month sub1 st.pushes }
  else
    { registry := reg1, candlesTotal := total1, candlesInSub := sub1,
      pushes := st.pushes }

/-- One iteration of the row loop: a row that fails to parse leaves the
state unchanged (the various skip paths), a parsed bar is ingested. -/
def processRow (currencyPair : String) (year month chunkSize totalRows : Nat)
    (st : IngestState) (row : List String) : IngestState :=
  match parseRowToBar row with
  | none => st
  | some bar => ingestBar currencyPair year month chunkSize totalRows st bar

/-- `parse_histdata_csv_and_push` (`histdata_ingestor.py`, lines 150-242)
on the already-split rows (`all_rows`), parameterised by the chunk size
`PUSH_SUB_BATCH_SIZE`.  `total_rows_in_file = len(all_rows)`. -/
def parse_histdata_csv_and_push (allRows : List (List String))
    (currencyPair : String) (year month chunkSize : Nat) : IngestState :=
  allRows.foldl (processRow currencyPair year month chunkSize allRows.length)
    initIngestState

/-- Split one CSV line into its semicolon-separated fields, as
`csv.reader` with a semicolon delimiter does on the quote-free rows of this data. -/
def splitSemicolons (line : String) : List String :=
  (splitOnChar ';' line.data).map (fun l => ⟨l⟩)

/-! ## `clear_pushgateway.py`: admin wipe and group reconciliation -/

/-- The possible outcomes of the `requests.put` admin-wipe call as seen by
`attempt_admin_wipe`: an HTTP response with a status code, or one of the
exception paths (connection error, timeout, any other exception), all of
which the function catches. -/
inductive WipeAttemptOutcome where
  | status (code : Nat)
  | connectionError
  | timeoutError
  | otherException
deriving DecidableEq, Repr

/-- `attempt_admin_wipe` (`clear_pushgateway.py`, lines 14-45): returns
`True` exactly on status 200; 404, 405, every other status and every
caught exception return `False`. -/
def attempt_admin_wipe : WipeAttemptOutcome → Bool
  | .status code => code == 200
  | _ => false

/-- The `__main__` block of `clear_pushgateway.py` (lines 155-166):
`discover_and_delete_groups` runs exactly when `attempt_admin_wipe`
returned `False`. -/
def cleanupRunsDiscover (outcome : WipeAttemptOutcome) : Bool :=
  !(attempt_admin_wipe outcome)

/-- First character of the regex `[a-zA-Z_:]` for a metric name. -/
def isMetricNameStart (c : Char) : Bool := c.isAlpha || c = '_' || c = ':'

/-- Continuation characters `[a-zA-Z0-9_:]` of a metric name. -/
def isMetricNameChar (c : Char) : Bool := c.isAlphanum || c = '_' || c = ':'

/-- `[a-zA-Z0-9_]` continuation characters of a label name. -/
def isLabelNameChar (c : Char) : Bool := c.isAlphanum || c = '_'

/-- True when the remainder matches the regex tail after the closing brace
with a non-greedy label body: one whitespace character suffices because
the rest is consumed by the trailing any-character run. -/
def wsThenAny : List Char → Bool
  | c :: _ => isWsChar c
  | [] => false

/-- Scan for the closing brace chosen by the non-greedy group
`\x7b(.*?)\x7d\s+.*$` of the metric-line regex: the first closing brace
that is followed by whitespace ends the label body; earlier closing braces
not followed by whitespace are absorbed into the body. -/
def findLabelBody : List Char → List Char → Option (List Char × List Char)
  | [], _ => none
  | c :: rest, acc =>
    if c = '}' && wsThenAny rest then some (acc.reverse, rest)
    else findLabelBody rest (c :: acc)

/-- The metric-line regex of `discover_and_delete_groups`
(`clear_pushgateway.py`, line 86) applied to one line: `none` when the line
does not match, `some none` when it matches without a label group,
`some (some body)` when a label body was captured. -/
def matchMetricLine (l : List Char) : Option (Option (List Char)) :=
  match l with
  | [] => none
  | c :: rest =>
    if isMetricNameStart c then
      match rest.dropWhile isMetricNameChar with
      | '{' :: afterBrace =>
        match findLabelBody afterBrace [] with
        | some (body, afterBody) =>
          if wsThenAny afterBody then some (some body) else none
        | none => none
      | other => if wsThenAny other then some none else none
    else none

/-- The value part `((?:\\.|[^"\\])*)` of the label regex: characters up to
an unescaped double quote, with escape pairs kept verbatim (the Python code
never unescapes). -/
def quotedRun : List Char → List Char → Option (List Char × List Char)
  | [], _ => none
  | '"' :: rest, acc => some (acc.reverse, rest)
  | '\\' :: c :: rest, acc => quotedRun rest (c :: '\\' :: acc)
  | ['\\'], _ => none
  | c :: rest, acc => quotedRun rest (c :: acc)

/-- One attempted match of the label regex
`([a-zA-Z_][a-zA-Z0-9_]*)\s*=\s*"((?:\\.|[^"\\])*)"` at the head of `l`. -/
def matchLabelAt (l : List Char) : Option ((String × String) × List Char) :=
  match l with
  | [] => none
  | c :: rest =>
    if c.isAlpha || c = '_' then
      let name : List Char := c :: rest.takeWhile isLabelNameChar
      match (rest.dropWhile isLabelNameChar).dropWhile isWsChar with
      | '=' :: afterEq =>
        match afterEq.dropWhile isWsChar with
        | '"' :: afterQuote =>
          match quotedRun afterQuote [] with
          | some (value, restAfter) => some ((⟨name⟩, ⟨value⟩), restAfter)
          | none => none
        | _ => none
      | _ => none
    else none

/-- `re.findall` of the label regex: scan left to right, emitting each
non-overlapping match and advancing one character where no match starts.
The fuel starts at the length of the list and every step consumes at least
one character, so it never runs out. -/
def labelFindAllGo : Nat → List Char → List (String × String)
  | 0, _ => []
  | _, [] => []
  | fuel + 1, l@(_ :: rest) =>
    match matchLabelAt l with
    | some (pair, rest') => pair :: labelFindAllGo fuel rest'
    | none => labelFindAllGo fuel rest

def labelFindAll (l : List Char) : List (String × String) :=
  labelFindAllGo l.length l

/-- Insert into an association list with Python `dict` semantics: a later
binding of the same key overwrites, insertion order is preserved. -/
def dictUpsert (d : List (String × String)) (k v : String) :
    List (String × String) :=
  if d.any (fun p => p.1 = k) then
    d.map (fun p => if p.1 = k then (k, v) else p)
  else d ++ [(k, v)]

def buildDict (ps : List (String × String)) : List (String × String) :=
  ps.foldl (fun d p => dictUpsert d p.1 p.2) []

def dictGet (d : List (String × String)) (k : String) : Option String :=
  (d.find? (fun p => p.1 == k)).map (fun p => p.2)

/-- Append to a list only when absent (Python `set.add`, with insertion
order standing in for the unspecified set iteration order; the claims only
count elements, which is order-independent). -/
def insertUnique (l : List String) (x : String) : List String :=
  if l.contains x then l else l ++ [x]

/-- `job_instances[job].add(inst)` on a `defaultdict(set)` modelled as an
insertion-ordered association list of insertion-ordered deduplicated
lists. -/
def mmAdd (m : List (String × List String)) (j i : String) :
    List (String × List String) :=
  if m.any (fun p => p.1 = j) then
    m.map (fun p => if p.1 = j then (j, insertUnique p.2 i) else p)
  else m ++ [(j, [i])]

def mmGet (m : List (String × List String)) (j : String) : List String :=
  ((m.find? (fun p => p.1 == j)).map (fun p => p.2)).getD []

/-- The discovery state of `discover_and_delete_groups`: the
`job -> set of instances` mapping and the set of all jobs seen. -/
structure ReconState where
  jobInstances : List (String × List String)
  allJobs : List String
deriving DecidableEq, Repr

/-- Processing of one exposition line (`clear_pushgateway.py`,
lines 91-110): skip comment and blank lines, match the metric-line regex,
parse the label body into a dict, pop `job` and read `instance`. -/
def processExpoLine (st : ReconState) (line : String) : ReconState :=
  if line.data.head? = some '#' || (stripChars line.data).isEmpty then st
  else
    match matchMetricLine line.data with
    | some (some body) =>
      if body.isEmpty then st
      else
        let labels := buildDict (labelFindAll body)
        match dictGet labels "job" with
        | none => st
        | some j =>
          let st1 : ReconState := ⟨st.jobInstances, insertUnique st.allJobs j⟩
          match dictGet labels "instance" with
          | none => st1
          | some i => ⟨mmAdd st1.jobInstances j i, st1.allJobs⟩
    | _ => st

/-- The DELETE requests issued by `discover_and_delete_groups`
(`clear_pushgateway.py`, lines 112-149): one `(job, instance)` delete per
discovered pair, then one job-level delete for every job that had no
instance-qualified entries.  `(j, some i)` stands for
`DELETE /metrics/job/j/instance/i` and `(j, none)` for
`DELETE /metrics/job/j`.  Response statuses only affect logging, never
which requests are issued. -/
def discover_and_delete_groups (metricsText : String) :
    List (String × Option String) :=
  let st := ((splitOnChar '\n' metricsText.data).map (fun l => (⟨l⟩ : String))).foldl
    processExpoLine ⟨[], []⟩
  (st.jobInstances.foldr (fun p acc => p.2.map (fun i => (p.1, some i)) ++ acc) [])
    ++ ((st.allJobs.filter (fun j => (mmGet st.jobInstances j).isEmpty)).map
        (fun j => (j, (none : Option String))))

/-! ## `fetch_and_extract_histdata_csv` (the Archive Resolver)

The function performs network and HTML work; the embedding abstracts the
environment (the parsed form, the POST content type, the ZIP extraction
result) and keeps the control flow of the source exactly: which checks are
made, in which order, whether the POST is issued, and what is returned. -/

structure FormModel where
  action : Option String
  inputs : List (String × String)
deriving DecidableEq, Repr

structure HistdataEnv where
  /-- the GET and its `raise_for_status` succeeded -/
  getOk : Bool
  /-- result of `soup.find` for the form with id `file_down` -/
  form : Option FormModel
  /-- the POST and its `raise_for_status` succeeded -/
  postOk : Bool
  /-- the `Content-Type` header of the POST response (empty if missing) -/
  postContentType : String
  /-- result of opening the ZIP and decoding the first `.csv` entry -/
  zipCsv : Option String
deriving DecidableEq, Repr

structure ResolveOutcome where
  postIssued : Bool
  result : Option String
deriving DecidableEq, Repr

def requiredFormFields : List String :=
  ["tk", "date", "datemonth", "platform", "timeframe", "fxpair"]

def zipContentTypes : List String :=
  ["application/zip", "application/octet-stream", "application/x-zip-compressed"]

/-- `fetch_and_extract_histdata_csv` (`histdata_ingestor.py`, lines 36-105):
fail (returning `None`) before the POST when the form is absent or a
required hidden field is missing; after the POST, fail when the declared
content type contains none of the accepted archive types; otherwise return
the extraction result.  Exception paths also return `None`. -/
def fetch_and_extract_histdata_csv (env : HistdataEnv) : ResolveOutcome :=
  if !env.getOk then ⟨false, none⟩
  else
    match env.form with
    | none => ⟨false, none⟩
    | some form =>
      let formInputs := buildDict form.inputs
      if requiredFormFields.all (fun f => (dictGet formInputs f).isSome) then
        if !env.postOk then ⟨true, none⟩
        else
          let contentType := pyLower env.postContentType
          if zipContentTypes.any (fun z => strContains contentType z) then
            ⟨true, env.zipCsv⟩
          else ⟨true, none⟩
      else ⟨false, none⟩

/-! ## Predicates used by the claims -/

/-- The well-formedness of a pushed label triple asserted by claim C10: the
timestamp label value is 14 digit characters. -/
def labelOk (lbl : String × String × String) : Prop :=
  lbl.2.2.length = 14 ∧ lbl.2.2.data.all Char.isDigit = true

instance (lbl : String × String × String) : Decidable (labelOk lbl) := by
  unfold labelOk
  infer_instance

def entryInRegistry (reg : Registry)
    (e : (String × String × String) × PyFloat) : Prop :=
  e ∈ reg.gOpen.entries ∨ e ∈ reg.gHigh.entries ∨
  e ∈ reg.gLow.entries ∨ e ∈ reg.gClose.entries

instance (reg : Registry) (e : (String × String × String) × PyFloat) :
    Decidable (entryInRegistry reg e) := by
  unfold entryInRegistry
  infer_instance

def registryOk (reg : Registry) : Prop :=
  ∀ e, entryInRegistry reg e → labelOk e.1

def pushesOk (ps : List PushEvent) : Prop := ∀ p ∈ ps, registryOk p.registry

def stateOk (st : IngestState) : Prop :=
  registryOk st.registry ∧ pushesOk st.pushes

def pushKeyOk (currencyPair : String) (y mo : Nat) (p : PushEvent) : Prop :=
  p.job = JOB_NAME ∧ p.groupingInstance = groupingKeyInstance currencyPair y mo

/-! ## Concrete sample inputs used by the claims -/

/-- The specification sample row, semicolon-split. -/
def sampleRowCombined : List String :=
  splitSemicolons "20230103 220000;1.0531;1.0534;1.0530;1.0533;0"

/-- The same bar with the date and time split across two fields. -/
def sampleRowSplit : List String :=
  splitSemicolons "20230103;220000;1.0531;1.0534;1.0530;1.0533;0"

/-- The same bar in the dotted datetime format, split across two fields. -/
def sampleRowDotted : List String :=
  splitSemicolons "2023.01.03;22:00;1.0531;1.0534;1.0530;1.0533;0"

/-- A row whose volume column is not a number. -/
def rowBadVolume : List String :=
  splitSemicolons "20230103 220000;1.0531;1.0534;1.0530;1.0533;abc"

/-- A row with only four columns after the timestamp. -/
def rowFourCols : List String :=
  splitSemicolons "20230103 220000;1.0531;1.0534;1.0530;1.0533"

/-- A row no datetime format matches. -/
def rowUnparseable : List String := ["badrow"]

/-- Exposition text with two data lines sharing job j1 under two distinct
instances, a comment line, a blank line, and one data line with job j2 and
no instance label. -/
def expositionSample : String :=
  "# HELP fx_ohlc_open Open price\n" ++
  "fx_ohlc_open\x7bcurrency_pair=\"EURUSD\",timeframe=\"1m\",job=\"j1\",instance=\"EURUSD_2023_01\"\x7d 1.0531\n" ++
  "fx_ohlc_open\x7bcurrency_pair=\"EURUSD\",timeframe=\"1m\",job=\"j1\",instance=\"EURUSD_2023_02\"\x7d 1.0610\n" ++
  "\n" ++
  "pushgateway_build_info\x7bjob=\"j2\"\x7d 1\n"

/-- A resolver environment whose form lacks five of the six required hidden
fields. -/
def envMissingFields : HistdataEnv :=
  { getOk := true, form := some { action := some "u", inputs := [("tk", "x")] },
    postOk := true, postContentType := "application/zip", zipCsv := some "csv" }

/-- A resolver environment whose POST response declares an HTML content
type. -/
def envHtmlResponse : HistdataEnv :=
  { getOk := true,
    form := some { action := some "u",
                   inputs := [("tk", "a"), ("date", "b"), ("datemonth", "c"),
                              ("platform", "d"), ("timeframe", "e"), ("fxpair", "f")] },
    postOk := true, postContentType := "text/html; charset=utf-8",
    zipCsv := some "csv" }

/-! ## Helper lemmas -/

theorem digitChr_isDigit (n : Nat) : (digitChr n).isDigit = true := by
  unfold digitChr
  split <;> rfl

theorem fmtTimestampLabel_length (dt : PyDateTime) :
    (fmtTimestampLabel dt).length = 14 := rfl

theorem fmtTimestampLabel_digits (dt : PyDateTime) :
    (fmtTimestampLabel dt).data.all Char.isDigit = true := by
  simp [fmtTimestampLabel, digitChr_isDigit]

theorem GaugeMap.mem_set_cases {g : GaugeMap} {k : String × String × String}
    {v : PyFloat} {e : (String × String × String) × PyFloat}
    (h : e ∈ (GaugeMap.set g k v).entries) : e ∈ g.entries ∨ e.1 = k := by
  unfold GaugeMap.set at h
  split at h
  · obtain ⟨a, ha, hae⟩ := List.mem_map.1 h
    by_cases hk : a.1 = k
    · right
      rw [← hae]
      simp [hk]
    · left
      rwa [← hae, if_neg hk]
  · rcases List.mem_append.1 h with h1 | h1
    · exact Or.inl h1
    · right
      have he : e = (k, v) := by simpa using h1
      rw [he]

theorem registryOk_empty : registryOk emptyRegistry := by
  intro e he
  rcases he with h | h | h | h <;> simp [emptyRegistry] at h

theorem labelOk_barLabels (currencyPair : String) (bar : PriceBar) :
    labelOk (barLabels currencyPair bar) :=
  ⟨fmtTimestampLabel_length bar.dt, fmtTimestampLabel_digits bar.dt⟩

theorem registryOk_addBar {reg : Registry} {currencyPair : String}
    {bar : PriceBar} (h : registryOk reg) :
    registryOk (addBar reg currencyPair bar) := by
  intro e he
  have hlab := labelOk_barLabels currencyPair bar
  simp only [addBar] at he
  rcases he with hm | hm | hm | hm
  · rcases GaugeMap.mem_set_cases hm with hmem | hk
    · exact h e (Or.inl hmem)
    · rw [hk]; exact hlab
  · rcases GaugeMap.mem_set_cases hm with hmem | hk
    · exact h e (Or.inr (Or.inl hmem))
    · rw [hk]; exact hlab
  · rcases GaugeMap.mem_set_cases hm with hmem | hk
    · exact h e (Or.inr (Or.inr (Or.inl hmem)))
    · rw [hk]; exact hlab
  · rcases GaugeMap.mem_set_cases hm with hmem | hk
    · exact h e (Or.inr (Or.inr (Or.inr hmem)))
    · rw [hk]; exact hlab

theorem stateOk_ingestBar {currencyPair : String} {y mo C T : Nat}
    {st : IngestState} {bar : PriceBar} (h : stateOk st) :
    stateOk (ingestBar currencyPair y mo C T st bar) := by
  obtain ⟨hreg, hpush⟩ := h
  have hreg1 : registryOk (addBar st.registry currencyPair bar) :=
    registryOk_addBar hreg
  simp only [ingestBar]
  split
  · refine ⟨?_, ?_⟩
    · split
      · exact registryOk_empty
      · exact hreg1
    · intro p hp
      simp only [push_metrics_sub_batch] at hp
      split at hp
      · exact hpush p hp
      · rcases List.mem_append.1 hp with h1 | h1
        · exact hpush p h1
        · have hpe := List.mem_singleton.1 h1
          rw [hpe]
          exact hreg1
  · exact ⟨hreg1, hpush⟩

theorem stateOk_processRow {currencyPair : String} {y mo C T : Nat}
    {st : IngestState} {row : List String} (h : stateOk st) :
    stateOk (processRow currencyPair y mo C T st row) := by
  unfold processRow
  split
  · exact h
  · exact stateOk_ingestBar h

theorem stateOk_foldl (currencyPair : String) (y mo C T : Nat)
    (l : List (List String)) (st : IngestState) (h : stateOk st) :
    stateOk (l.foldl (processRow currencyPair y mo C T) st) := by
  induction l generalizing st with
  | nil => exact h
  | cons r rs ih => exact ih _ (stateOk_processRow h)

theorem pushKeys_processRow {currencyPair : String} {y mo C T : Nat}
    {st : IngestState} {row : List String}
    (h : ∀ p ∈ st.pushes, pushKeyOk currencyPair y mo p) :
    ∀ p ∈ (processRow currencyPair y mo C T st row).pushes,
      pushKeyOk currencyPair y mo p := by
  unfold processRow
  split
  · exact h
  · simp only [ingestBar]
    split
    · intro p hp
      simp only [push_metrics_sub_batch] at hp
      split at hp
      · exact h p hp
      · rcases List.mem_append.1 hp with h1 | h1
        · exact h p h1
        · have hpe := List.mem_singleton.1 h1
          rw [hpe]
          exact ⟨rfl, rfl⟩
    · exact h

theorem pushKeys_foldl (currencyPair : String) (y mo C T : Nat)
    (l : List (List String)) (st : IngestState)
    (h : ∀ p ∈ st.pushes, pushKeyOk currencyPair y mo p) :
    ∀ p ∈ (l.foldl (processRow currencyPair y mo C T) st).pushes,
      pushKeyOk currencyPair y mo p := by
  induction l generalizing st with
  | nil => exact h
  | cons r rs ih => exact ih _ (pushKeys_processRow h)

theorem candlesTotal_processRow_le {currencyPair : String} {y mo C T : Nat}
    {st : IngestState} {row : List String} :
    (processRow currencyPair y mo C T st row).candlesTotal ≤
      st.candlesTotal + 1 := by
  unfold processRow
  split
  · omega
  · simp only [ingestBar]
    split <;> simp

theorem candlesTotal_foldl_le (currencyPair : String) (y mo C T : Nat)
    (l : List (List String)) (st : IngestState) :
    (l.foldl (processRow currencyPair y mo C T) st).candlesTotal ≤
      st.candlesTotal + l.length := by
  induction l generalizing st with
  | nil => simp
  | cons r rs ih =>
    calc (List.foldl (processRow currencyPair y mo C T)
            (processRow currencyPair y mo C T st r) rs).candlesTotal
        ≤ (processRow currencyPair y mo C T st r).candlesTotal + rs.length := ih _
      _ ≤ st.candlesTotal + 1 + rs.length :=
          Nat.add_le_add_right candlesTotal_processRow_le _
      _ = st.candlesTotal + (r :: rs).length := by simp [List.length_cons]; omega

theorem isWsChar_eq_false_of_isDigit {c : Char} (h : c.isDigit = true) :
    isWsChar c = false := by
  cases hw : isWsChar c with
  | false => rfl
  | true =>
    exfalso
    simp [isWsChar] at hw
    rcases hw with ((((rfl | rfl) | rfl) | rfl) | rfl) | rfl <;> simp at h

theorem tokenGroups_nonws (l : List Char) (hne : l ≠ [])
    (h : ∀ c ∈ l, isWsChar c = false) : tokenGroups l = [l] := by
  induction l with
  | nil => exact absurd rfl hne
  | cons c rest ih =>
    have hc : isWsChar c = false := h c (by simp)
    cases rest with
    | nil => simp [tokenGroups, hc]
    | cons d rs =>
      have hrest := ih (by simp) (fun x hx => h x (by simp [hx]))
      have hstep : tokenGroups (c :: d :: rs) =
          (if isWsChar c then [] :: tokenGroups (d :: rs)
           else
             match tokenGroups (d :: rs) with
             | [] => [[c]]
             | t :: ts => (c :: t) :: ts) := rfl
      rw [hstep, hc, hrest]
      simp

theorem pyTokens_of_digits (s : String) (hne : s.data ≠ [])
    (hdig : s.data.all Char.isDigit = true) : pyTokens s = [s.data] := by
  have hnws : ∀ c ∈ s.data, isWsChar c = false := fun c hc =>
    isWsChar_eq_false_of_isDigit (List.all_eq_true.1 hdig c hc)
  unfold pyTokens
  rw [tokenGroups_nonws s.data hne hnws]
  simp [hne]

theorem strHasChar_false_of_digits (s : String) (c : Char)
    (hdig : s.data.all Char.isDigit = true) (hc : c.isDigit = false) :
    strHasChar s c = false := by
  cases ha : strHasChar s c with
  | false => rfl
  | true =>
    exfalso
    unfold strHasChar at ha
    obtain ⟨x, hx, hxc⟩ := List.any_eq_true.1 ha
    rw [decide_eq_true_eq] at hxc
    have hxd := List.all_eq_true.1 hdig x hx
    rw [hxc, hc] at hxd
    exact Bool.noConfusion hxd

/-! ## The claims -/

/-- C4: the row `20230103 220000;1.0531;1.0534;1.0530;1.0533;0`, split on
semicolons into six columns, parses to a bar with timestamp
2023-01-03 22:00:00 and open 1.0531, high 1.0534, low 1.0530, close 1.0533
(`PyFloat.finite m e` stands for the value m * 10 ^ e). -/
theorem claim_C4_sample_row :
    parseRowToBar sampleRowCombined =
      some ⟨⟨2023, 1, 3, 22, 0, 0⟩, .finite 10531 (-4), .finite 10534 (-4),
            .finite 10530 (-4), .finite 10533 (-4)⟩ := by decide

/-- C1 (code-bug exhibit): for the two-row input of one valid row followed
by one unparseable row, with the default chunk size 1000, exactly one row
parses into a valid bar, so the claim demands ceil(1/1000) = 1 push call
carrying 1 bar; the code issues zero push calls, because the final-flush
condition compares the valid-candle count with the total row count, which
never coincide once any row was skipped. -/
theorem claim_C1_trailing_chunk_never_pushed :
    (([sampleRowCombined, rowUnparseable].filter
        (fun r => (parseRowToBar r).isSome)).length = 1) ∧
    (1 + 1000 - 1) / 1000 = 1 ∧
    (parse_histdata_csv_and_push [sampleRowCombined, rowUnparseable]
        "EURUSD" 2023 1 1000).pushes.length = 0 := by decide

/-- C7: the discover-and-delete phase runs exactly when the admin wipe did
not return status 200: 404, 405, every other status, and each caught
exception path (connection error, timeout, other) all cause it to run. -/
theorem claim_C7_discover_iff_wipe_not_200 (o : WipeAttemptOutcome) :
    cleanupRunsDiscover o = true ↔ o ≠ WipeAttemptOutcome.status 200 := by
  cases o with
  | status c =>
    simp [cleanupRunsDiscover, attempt_admin_wipe]
  | connectionError => simp [cleanupRunsDiscover, attempt_admin_wipe]
  | timeoutError => simp [cleanupRunsDiscover, attempt_admin_wipe]
  | otherException => simp [cleanupRunsDiscover, attempt_admin_wipe]

/-- Witness for C7 at the concrete statuses named by the claim. -/
theorem claim_C7_witness :
    cleanupRunsDiscover (WipeAttemptOutcome.status 405) = true ∧
    cleanupRunsDiscover (WipeAttemptOutcome.status 404) = true ∧
    cleanupRunsDiscover (WipeAttemptOutcome.connectionError) = true ∧
    ¬ cleanupRunsDiscover (WipeAttemptOutcome.status 200) = true := by
  refine ⟨?_, ?_, ?_, ?_⟩
  · exact (claim_C7_discover_iff_wipe_not_200 _).mpr (by decide)
  · exact (claim_C7_discover_iff_wipe_not_200 _).mpr (by decide)
  · exact (claim_C7_discover_iff_wipe_not_200 _).mpr (by decide)
  · intro h
    exact (claim_C7_discover_iff_wipe_not_200 _).mp h rfl

/-- C6: on the sample exposition text, the reconciler issues exactly two
(job, instance) deletes for j1, zero job-level deletes for j1, and exactly
one job-level delete for j2. -/
theorem claim_C6_reconciler_delete_calls :
    ((discover_and_delete_groups expositionSample).filter
        (fun c => c.1 == "j1" && c.2.isSome)).length = 2 ∧
    ((discover_and_delete_groups expositionSample).filter
        (fun c => c.1 == "j1" && c.2.isNone)).length = 0 ∧
    ((discover_and_delete_groups expositionSample).filter
        (fun c => c.1 == "j2" && c.2.isNone)).length = 1 := by decide

/-- C8: when the fetched HTML has no form with id file_down, or the form
lacks a required hidden field, the resolver returns None without issuing
the POST; and when the POST response content type matches none of the
accepted archive types, the resolver returns None rather than the bytes. -/
theorem claim_C8_resolver_failure_paths (env : HistdataEnv) :
    (env.form = none →
      fetch_and_extract_histdata_csv env = ⟨false, none⟩) ∧
    (∀ form, env.form = some form →
      requiredFormFields.all
          (fun f => (dictGet (buildDict form.inputs) f).isSome) = false →
      fetch_and_extract_histdata_csv env = ⟨false, none⟩) ∧
    (zipContentTypes.any
        (fun z => strContains (pyLower env.postContentType) z) = false →
      (fetch_and_extract_histdata_csv env).result = none) := by
  refine ⟨?_, ?_, ?_⟩
  · intro h
    unfold fetch_and_extract_histdata_csv
    rw [h]
    split <;> rfl
  · intro form hform hfields
    unfold fetch_and_extract_histdata_csv
    rw [hform]
    split
    · rfl
    · simp only [hfields]
      rfl
  · intro hct
    unfold fetch_and_extract_histdata_csv
    cases hg : env.getOk with
    | false => simp [hg]
    | true =>
      cases hfm : env.form with
      | none => simp [hg, hfm]
      | some form =>
        cases hfl : (requiredFormFields.all
            fun f => (dictGet (buildDict form.inputs) f).isSome) with
        | false => simp [hg, hfm, hfl]
        | true =>
          cases hp : env.postOk with
          | false => simp [hg, hfm, hfl, hp]
          | true => simp [hg, hfm, hfl, hp, hct]

/-- Witness for C8: a form missing five required fields fails without a
POST, and an HTML content type makes the resolver return None. -/
theorem claim_C8_witness :
    fetch_and_extract_histdata_csv envMissingFields =
      ⟨false, none⟩ ∧
    (fetch_and_extract_histdata_csv envHtmlResponse).result = none := by
  constructor
  · exact (claim_C8_resolver_failure_paths envMissingFields).2.1 _ rfl (by decide)
  · exact (claim_C8_resolver_failure_paths envHtmlResponse).2.2 (by decide)

/-- C5 (counterexample): the row whose volume column is `abc` has a numeric
conversion failure in one of the five columns named by the claim (open,
high, low, close, volume), yet it is not skipped: the code converts only
the four OHLC columns — the volume conversion is commented out — so the
row produces a bar and is counted. -/
theorem claim_C5_counterexample :
    pyFloat "abc" = none ∧
    (parseRowToBar rowBadVolume).isSome = true ∧
    (processRow "EURUSD" 2023 1 1000 2 initIngestState rowBadVolume).candlesTotal
      = 1 := by decide

/-- C5 (amended): a row with fewer than five columns after the detected
offset, or with a numeric conversion failure in one of the four OHLC
columns (the volume column is never converted), is skipped entirely: the
loop state is unchanged, so the row contributes no partial bar to any
chunk and processing of the remaining rows continues. -/
theorem claim_C5_amended_row_skip (currencyPair : String) (y mo C T : Nat)
    (st : IngestState) (row : List String)
    (hbad : row.length < ohlcvStartIndex row + 5 ∨
            pyFloat (row.getD (ohlcvStartIndex row) "") = none ∨
            pyFloat (row.getD (ohlcvStartIndex row + 1) "") = none ∨
            pyFloat (row.getD (ohlcvStartIndex row + 2) "") = none ∨
            pyFloat (row.getD (ohlcvStartIndex row + 3) "") = none) :
    processRow currencyPair y mo C T st row = st := by
  have hnone : parseRowToBar row = none := by
    unfold parseRowToBar
    cases hdt : parse_datetime_from_row row with
    | none => rfl
    | some dt =>
      simp only []
      split
      · rfl
      · cases h1 : pyFloat (row.getD (ohlcvStartIndex row) "") <;>
        cases h2 : pyFloat (row.getD (ohlcvStartIndex row + 1) "") <;>
        cases h3 : pyFloat (row.getD (ohlcvStartIndex row + 2) "") <;>
        cases h4 : pyFloat (row.getD (ohlcvStartIndex row + 3) "") <;>
        simp_all
  unfold processRow
  rw [hnone]

/-- Witness for C5 at the specification example of a row with only four
trailing numeric columns. -/
theorem claim_C5_witness :
    processRow "EURUSD" 2023 1 1000 1 initIngestState rowFourCols =
      initIngestState :=
  claim_C5_amended_row_skip "EURUSD" 2023 1 1000 1 initIngestState rowFourCols
    (by decide)

/-- C9: every push call issued by a run carries the fixed job name and the
grouping-key instance string derived from the request parameters alone
(instrument, year, zero-padded month), so any two runs or chunks for the
same (instrument, year, month) triple push under the exact same group key
string. -/
theorem claim_C9_grouping_key (rows : List (List String))
    (currencyPair : String) (y mo C : Nat) :
    ∀ p ∈ (parse_histdata_csv_and_push rows currencyPair y mo C).pushes,
      p.job = JOB_NAME ∧
      p.groupingInstance = groupingKeyInstance currencyPair y mo := by
  unfold parse_histdata_csv_and_push
  exact pushKeys_foldl currencyPair y mo C rows.length rows initIngestState
    (fun p hp => absurd hp (by simp [initIngestState]))

/-- Witness for C9: the single push of a one-row run carries the grouping
instance EURUSD_2023_01. -/
theorem claim_C9_witness :
    ((parse_histdata_csv_and_push [sampleRowCombined] "EURUSD" 2023 1
        1000).pushes.getD 0 ⟨"", "", emptyRegistry, 0⟩).groupingInstance =
      "EURUSD_2023_01" := by
  have h := claim_C9_grouping_key [sampleRowCombined] "EURUSD" 2023 1 1000
    ((parse_histdata_csv_and_push [sampleRowCombined] "EURUSD" 2023 1
        1000).pushes.getD 0 ⟨"", "", emptyRegistry, 0⟩)
    (by decide)
  rw [h.2]
  decide

/-- C3: whenever processing a row causes a push call and rows remain after
that row, the accumulator state entering the remaining rows is the freshly
constructed empty registry (all four gauges empty); hence no series of an
already-pushed chunk is carried into a later push — a later chunk contains
exactly the series added by rows processed after the push. -/
theorem claim_C3_fresh_registry_after_push (currencyPair : String)
    (y mo C : Nat) (pre post : List (List String)) (row : List String)
    (hpost : post ≠ [])
    (hgrow :
      (pre.foldl
          (processRow currencyPair y mo C (pre ++ row :: post).length)
          initIngestState).pushes.length <
        (processRow currencyPair y mo C (pre ++ row :: post).length
          (pre.foldl
            (processRow currencyPair y mo C (pre ++ row :: post).length)
            initIngestState) row).pushes.length) :
    (processRow currencyPair y mo C (pre ++ row :: post).length
      (pre.foldl (processRow currencyPair y mo C (pre ++ row :: post).length)
        initIngestState) row).registry = emptyRegistry := by
  set T := (pre ++ row :: post).length with hT
  set st := pre.foldl (processRow currencyPair y mo C T) initIngestState
    with hst
  have htot : st.candlesTotal ≤ pre.length := by
    have h := candlesTotal_foldl_le currencyPair y mo C T pre initIngestState
    simpa [initIngestState] using h
  have hlen : pre.length + 1 < T := by
    rw [hT, List.length_append, List.length_cons]
    cases post with
    | nil => exact absurd rfl hpost
    | cons q qs =>
      simp only [List.length_cons]
      omega
  revert hgrow
  unfold processRow
  cases hbar : parseRowToBar row with
  | none =>
    intro hgrow
    exact absurd hgrow (lt_irrefl _)
  | some bar =>
    simp only [ingestBar]
    split
    · intro _
      split
      · rfl
      · omega
    · intro hgrow
      exact absurd hgrow (lt_irrefl _)

/-- Witness for C3: with chunk size 1, the first of two valid rows triggers
a push and the registry entering the second row is the empty one. -/
theorem claim_C3_witness :
    (processRow "EURUSD" 2023 1 1
      (([] : List (List String)) ++ sampleRowCombined ::
        [sampleRowSplit]).length
      (([] : List (List String)).foldl
        (processRow "EURUSD" 2023 1 1
          (([] : List (List String)) ++ sampleRowCombined ::
            [sampleRowSplit]).length)
        initIngestState)
      sampleRowCombined).registry = emptyRegistry :=
  claim_C3_fresh_registry_after_push "EURUSD" 2023 1 1 [] [sampleRowSplit]
    sampleRowCombined (by decide) (by decide)

/-- C10: every series included in any pushed chunk carries a timestamp
label of exactly 14 digit characters (the canonical %Y%m%d%H%M%S form,
whichever of the three supported datetime encodings its row used); and any
two rows that parse to bars denoting the same instant receive identical
label triples, hence the same series (last write wins within a chunk). -/
theorem claim_C10_canonical_timestamp_labels (rows : List (List String))
    (currencyPair : String) (y mo C : Nat) :
    (∀ p ∈ (parse_histdata_csv_and_push rows currencyPair y mo C).pushes,
      ∀ e, entryInRegistry p.registry e → labelOk e.1) ∧
    (∀ r1 r2 b1 b2, parseRowToBar r1 = some b1 → parseRowToBar r2 = some b2 →
      b1.dt = b2.dt →
      barLabels currencyPair b1 = barLabels currencyPair b2) := by
  constructor
  · have h := stateOk_foldl currencyPair y mo C rows.length rows initIngestState
      ⟨registryOk_empty, fun p hp => absurd hp (List.not_mem_nil p)⟩
    exact fun p hp => h.2 p hp
  · intro r1 r2 b1 b2 _ _ hdt
    unfold barLabels
    rw [hdt]

/-- Witness for C10 at the single pushed entry of a one-row run: its
timestamp label 20230103220000 is 14 digit characters. -/
theorem claim_C10_witness :
    labelOk ("EURUSD", "1m", "20230103220000") :=
  (claim_C10_canonical_timestamp_labels [sampleRowCombined] "EURUSD" 2023 1
      1000).1
    ((parse_histdata_csv_and_push [sampleRowCombined] "EURUSD" 2023 1
        1000).pushes.getD 0 ⟨"", "", emptyRegistry, 0⟩)
    (by decide)
    (("EURUSD", "1m", "20230103220000"), PyFloat.finite 10531 (-4))
    (by decide)

/-- C2 (counterexample): for the dotted-format row
`2023.01.03;22:00;1.0531;...` the timestamp is recovered from the
space-joined concatenation of columns 0 and 1 (column 0 alone parses under
no format), yet the OHLC start offset is 1, not 2: the open price is read
from the time field at column 1, whose float conversion then fails, so the
row is rejected rather than mis-parsed. -/
theorem claim_C2_counterexample :
    tryFormats (pyStrip "2023.01.03") = none ∧
    parse_datetime_from_row sampleRowDotted = some ⟨2023, 1, 3, 22, 0, 0⟩ ∧
    ohlcvStartIndex sampleRowDotted = 1 ∧
    ¬ ohlcvStartIndex sampleRowDotted = 2 ∧
    parseRowToBar sampleRowDotted = none := by decide

/-- C2 (amended): for every row whose timestamp is recovered from the
space-joined concatenation of columns 0 and 1 and whose column 0 is a
nonempty all-digit string (the supported digit-only split date form, e.g.
date 20230103 with time 220000), the OHLC values are read starting at
column offset 2, so the open price is taken from column 2 and not from the
time field at column 1.  Split rows in the dotted format instead keep
offset 1 and are rejected by the subsequent float conversion, as the
counterexample shows. -/
theorem claim_C2_amended_offset_two (s0 s1 : String) (rest : List String)
    (dt : PyDateTime) (hne : s0.data ≠ [])
    (hdig : s0.data.all Char.isDigit = true)
    (halone : tryFormats (pyStrip s0) = none)
    (hcomb : tryFormats (pyStrip s0 ++ " " ++ pyStrip s1) = some dt) :
    ohlcvStartIndex (s0 :: s1 :: rest) = 2 := by
  have htok : pyTokens s0 = [s0.data] := pyTokens_of_digits s0 hne hdig
  have hdot : strHasChar s0 '.' = false :=
    strHasChar_false_of_digits s0 '.' hdig (by decide)
  have hcol : strHasChar s0 ':' = false :=
    strHasChar_false_of_digits s0 ':' hdig (by decide)
  unfold ohlcvStartIndex
  simp only [htok, hdot, hcol, List.length_cons, List.length_singleton,
    List.getD_cons_succ, List.getD_cons_zero]
  cases hx : strHasChar s1 ':' <;> simp [hx]

/-- Witness for C2 at the digit-only split row: column 0 is 20230103, the
timestamp comes from the concatenation with 220000, and the offset is 2. -/
theorem claim_C2_witness :
    ohlcvStartIndex ("20230103" :: "220000" ::
      ["1.0531", "1.0534", "1.0530", "1.0533", "0"]) = 2 :=
  claim_C2_amended_offset_two "20230103" "220000"
    ["1.0531", "1.0534", "1.0530", "1.0533", "0"] ⟨2023, 1, 3, 22, 0, 0⟩
    (by decide) (by decide) (by decide) (by decide)
